import Mathlib

/-!
# Verification of the nested collection mutation model

A shallow embedding of the series / season / episode / media hierarchy and of
the route handlers of `src/models/Profile.js` (the API routes file), together
with the asset-lifecycle helpers, and proofs about them.

Conventions of the embedding:
* JavaScript mutable documents become immutable Lean values; each route handler
  becomes a function `Series → arguments → Except ApiError result`, where an
  `Except.error` value models a non-2xx response sent before the document is
  saved (so the persisted document is unchanged on error).
* Blob-store (S3) delete calls are not performed; instead each handler returns
  the ordered list of keys (or events) it would pass to `deleteFromS3`.
* Route indices arrive through `parseInt`, so they are modelled as `Int`; a
  JavaScript array read `xs[i]` yields `undefined` for `i < 0` or `i ≥ length`,
  modelled by `jsIndex` returning `none`.  Reading a field of `undefined`
  throws a `TypeError`, which the route's `try/catch` turns into a 500
  response; this is modelled by `ApiError.typeError`.
* `src/config/s3.js` is not part of the sources; `getS3Url` / `getKeyFromUrl`
  are modelled from the spec (see their doc comments).
-/

namespace NetflixGallery

/-- Media subdocument (`mediaSchema` in `src/models/Series.js`): `_id` is the
stable identifier mongoose assigns at creation (modelled as `Nat`), plus
`filename`, `originalName`, `type` (image/video, modelled as `isVideo`) and
`url`. -/
structure Media where
  id : Nat
  filename : String
  originalName : String
  isVideo : Bool
  url : String
deriving Repr, DecidableEq

/-- Episode subdocument (`episodeSchema`): title, optional thumbnail, a
description, optional music reference with its original file name, and an
ordered media list. -/
structure Episode where
  title : String
  thumbnail : Option String
  description : String
  music : Option String
  musicOriginalName : Option String
  media : List Media
deriving Repr, DecidableEq

/-- Season subdocument (`seasonSchema`): a title and an ordered episode list. -/
structure Season where
  title : String
  episodes : List Episode
deriving Repr, DecidableEq

/-- Series document (`seriesSchema`): title, description, optional thumbnail
and an ordered season list. -/
structure Series where
  title : String
  description : String
  thumbnail : Option String
  seasons : List Season
deriving Repr, DecidableEq

/-- Errors a route can answer with before saving the document.  The first
seven model explicit 400 responses of the handlers, `mediaNotFound` a 404, and
`typeError` models an uncaught JavaScript `TypeError` (reading a property of
`undefined`) that the `catch` block turns into a 500 response. -/
inductive ApiError
  | invalidSeasonIndex
  | invalidEpisodeIndex
  | invalidIndex
  | maxSeasons
  | maxEpisodes
  | cannotDeleteLastSeason
  | cannotDeleteLastEpisode
  | mediaNotFound
  | typeError
deriving Repr, DecidableEq

/-- JavaScript array read `xs[i]` for an `Int` index: `undefined` (`none`) for
negative or too-large indices, no wraparound. -/
def jsIndex {α : Type} (xs : List α) (i : Int) : Option α :=
  if i < 0 then none else xs[i.toNat]?

/-- JavaScript truthiness of an optional string field (`null`/`undefined` and
`""` are falsy). -/
def truthy : Option String → Bool
  | none => false
  | some s => s ≠ ""

/-- Modelled from the spec: the blob store's known URL prefix used for key
derivation (`src/config/s3.js` is not among the sources; the spec only
requires a fixed known prefix). -/
def s3UrlBase : String := "https://s3/"

/-- Modelled from the spec: `getS3Url` builds an asset reference from a
storage key by attaching the blob store's URL prefix (inverse of the key
derivation described in §4.2 of the spec; `src/config/s3.js` is missing). -/
def getS3Url (key : String) : String := s3UrlBase ++ key

/-- Helper `stripStart pre s` removes the leading character sequence `pre` from `s`,
or yields `none` when `s` does not start with `pre`. -/
def stripStart : List Char → List Char → Option (List Char)
  | [], rest => some rest
  | _ :: _, [] => none
  | p :: ps, c :: cs => if c = p then stripStart ps cs else none

/-- Modelled from the spec: `getKeyFromUrl` strips the blob store's known URL
prefix from an asset reference; references not matching the prefix yield no
key (`src/config/s3.js` is missing). -/
def getKeyFromUrl (url : String) : Option String :=
  (stripStart s3UrlBase.data url.data).map String.mk

instance {ε α : Type} [DecidableEq ε] [DecidableEq α] : DecidableEq (Except ε α)
  | .error e, .error f =>
    if h : e = f then .isTrue (by rw [h])
    else .isFalse (by intro c; injection c; exact h ‹_›)
  | .error _, .ok _ => .isFalse (by intro c; cases c)
  | .ok _, .error _ => .isFalse (by intro c; cases c)
  | .ok x, .ok y =>
    if h : x = y then .isTrue (by rw [h])
    else .isFalse (by intro c; injection c; exact h ‹_›)

/-- The delete calls issued by the recurring pattern
`const key = getKeyFromUrl(u); if (key) await deleteFromS3(key);`:
at most one call, skipped when no key is derived or the key is empty
(falsy). -/
def deleteCallsFor (u : String) : List String :=
  match getKeyFromUrl u with
  | none => []
  | some k => if k = "" then [] else [k]

/-- The delete calls issued by
`if (field) { const key = getKeyFromUrl(field); if (key) ... }`
for an optional asset field. -/
def optionalAssetCalls : Option String → List String
  | none => []
  | some u => if u = "" then [] else deleteCallsFor u

/-- Function `deleteEpisodeAssets` (Profile.js:150-163): delete the thumbnail's blob if
set, then the music's blob if set, then each media item's blob, returning the
ordered list of issued delete keys. -/
def deleteEpisodeAssets (e : Episode) : List String :=
  optionalAssetCalls e.thumbnail ++ optionalAssetCalls e.music ++
    e.media.flatMap (fun m => deleteCallsFor m.url)

/-- Function `deleteSeasonAssets` (Profile.js:166-170): delete every episode's assets
in order. -/
def deleteSeasonAssets (s : Season) : List String :=
  s.episodes.flatMap deleteEpisodeAssets

/-- Function `getEpisode` (Profile.js:142-147).  Returns `.ok none` where the
JavaScript function returns `null` (season index too large, episode index too
large) or `undefined` (negative episode index); returns `.error .typeError`
where the JavaScript function throws (negative season index, so that
`series.seasons[seasonIndex]` is `undefined` and reading `.episodes`
throws). -/
def getEpisode (s : Series) (si ei : Int) : Except ApiError (Option Episode) :=
  if (s.seasons.length : Int) ≤ si then .ok none
  else match jsIndex s.seasons si with
    | none => .error .typeError
    | some season =>
      if (season.episodes.length : Int) ≤ ei then .ok none
      else .ok (jsIndex season.episodes ei)

/-- An observable side effect of a route: a blob-store delete call with the
derived key, or the single whole-document save. -/
inductive Event
  | blobDelete (key : String)
  | docSave
deriving Repr, DecidableEq

/-- A freshly created episode (the object literal pushed by the season /
episode creation routes): placeholder title `Episode (i+1)`, empty
description, no thumbnail, no music, empty media list. -/
def mkEpisode (i : Nat) : Episode :=
  { title := "Episode " ++ toString (i + 1)
    thumbnail := none
    description := ""
    music := none
    musicOriginalName := none
    media := [] }

/-- JavaScript `Array.from({length: n}, (_, i) => ({title: Episode i+1, ...}))`. -/
def mkEpisodes (n : Nat) : List Episode := (List.range n).map mkEpisode

/-- JavaScript `episodeCount || 1` on the optional request-body field:
`undefined` and `0` are falsy. -/
def jsOrOne : Option Int → Int
  | none => 1
  | some n => if n = 0 then 1 else n

/-- JavaScript `Math.min(Math.max(episodeCount || 1, 1), 10)` as a natural number. -/
def clampEpisodeCount (episodeCount : Option Int) : Nat :=
  (min (max (jsOrOne episodeCount) 1) 10).toNat

/-- Route `POST /series/:seriesId/seasons` (Profile.js:369-402): reject with 400
when there are already 10 seasons, otherwise append a season titled by its
1-based ordinal holding `clampEpisodeCount` fresh episodes, and save. -/
def addSeason (s : Series) (episodeCount : Option Int) : Except ApiError Series :=
  if 10 ≤ s.seasons.length then .error .maxSeasons
  else .ok { s with seasons := s.seasons ++
    [{ title := "Season " ++ toString (s.seasons.length + 1)
       episodes := mkEpisodes (clampEpisodeCount episodeCount) }] }

/-- Route `DELETE /series/:seriesId/seasons/:seasonIndex` (Profile.js:405-433):
reject 400 when the index is at least the season count, reject 400 when only
one season remains; otherwise delete the season's assets, splice it out and
save.  A negative index passes both checks but makes
`deleteSeasonAssets(series.seasons[seasonIndex])` throw on
`undefined.episodes` (modelled by `typeError`).  On success the result also
carries the issued blob-delete keys. -/
def removeSeason (s : Series) (si : Int) : Except ApiError (Series × List String) :=
  if (s.seasons.length : Int) ≤ si then .error .invalidSeasonIndex
  else if s.seasons.length ≤ 1 then .error .cannotDeleteLastSeason
  else match jsIndex s.seasons si with
    | none => .error .typeError
    | some season =>
      .ok ({ s with seasons := s.seasons.eraseIdx si.toNat }, deleteSeasonAssets season)

/-- Route `POST /series/:seriesId/seasons/:seasonIndex/episodes` (Profile.js:436-469):
reject 400 when the season index is at least the season count; a negative
index throws on `undefined.episodes` (`typeError`); reject 400 when the season
already has 10 episodes; otherwise push a fresh episode titled by its new
1-based ordinal and save. -/
def addEpisode (s : Series) (si : Int) : Except ApiError Series :=
  if (s.seasons.length : Int) ≤ si then .error .invalidSeasonIndex
  else match jsIndex s.seasons si with
    | none => .error .typeError
    | some season =>
      if 10 ≤ season.episodes.length then .error .maxEpisodes
      else
        let season2 := { season with episodes := season.episodes ++ [mkEpisode season.episodes.length] }
        .ok { s with seasons := s.seasons.set si.toNat season2 }

/-- Route `DELETE /series/:seriesId/seasons/:seasonIndex/episodes/:episodeIndex`
(Profile.js:472-506): reject 400 on season index at least the count; negative
season index throws (`typeError`); reject 400 on episode index at least the
count; reject 400 when the season has a single episode; a negative episode
index throws inside `deleteEpisodeAssets(undefined)` (`typeError`); otherwise
delete the episode's assets, splice it out and save. -/
def removeEpisode (s : Series) (si ei : Int) : Except ApiError (Series × List String) :=
  if (s.seasons.length : Int) ≤ si then .error .invalidSeasonIndex
  else match jsIndex s.seasons si with
    | none => .error .typeError
    | some season =>
      if (season.episodes.length : Int) ≤ ei then .error .invalidEpisodeIndex
      else if season.episodes.length ≤ 1 then .error .cannotDeleteLastEpisode
      else match jsIndex season.episodes ei with
        | none => .error .typeError
        | some episode =>
          let season2 := { season with episodes := season.episodes.eraseIdx ei.toNat }
          .ok ({ s with seasons := s.seasons.set si.toNat season2 }, deleteEpisodeAssets episode)

/-- Replace the episode at a valid position (mutation through the
`episode` reference obtained from `getEpisode`); identity when the position
does not resolve. -/
def updateEpisode (s : Series) (si ei : Int) (f : Episode → Episode) : Series :=
  match jsIndex s.seasons si with
  | none => s
  | some season =>
    match jsIndex season.episodes ei with
    | none => s
    | some episode =>
      let season2 := { season with episodes := season.episodes.set ei.toNat (f episode) }
      { s with seasons := s.seasons.set si.toNat season2 }

/-- JavaScript `mediaIds.map(id => episode.media.find(m => m._id.toString() === id)).filter(Boolean)`
(Profile.js:765-767). -/
def reorderedList (media : List Media) (ids : List Nat) : List Media :=
  ids.filterMap (fun id => media.find? (fun m => m.id == id))

/-- Route `PUT /series/:seriesId/reorder/:seasonIndex/:episodeIndex`
(Profile.js:749-777): resolve the episode (400 on unresolved indices, 500 on a
negative season index), rebuild its media list from `mediaIds`, save.  The
route issues no blob-store delete calls, hence the empty key list. -/
def reorderMedia (s : Series) (si ei : Int) (mediaIds : List Nat) :
    Except ApiError (Series × List String) :=
  match getEpisode s si ei with
  | .error e => .error e
  | .ok none => .error .invalidIndex
  | .ok (some episode) =>
    .ok (updateEpisode s si ei (fun e => { e with media := reorderedList episode.media mediaIds }),
         [])

/-- Route `DELETE /series/:seriesId/media/:seasonIndex/:episodeIndex/:mediaId`
(Profile.js:712-746): resolve the episode, 404 when no media item has the id;
otherwise issue the delete call for its key (if derivable), splice it out and
save. -/
def removeMedia (s : Series) (si ei : Int) (mediaId : Nat) :
    Except ApiError (Series × List String) :=
  match getEpisode s si ei with
  | .error e => .error e
  | .ok none => .error .invalidIndex
  | .ok (some episode) =>
    match episode.media.findIdx? (fun m => m.id == mediaId) with
    | none => .error .mediaNotFound
    | some i =>
      let calls := match episode.media[i]? with
        | none => []
        | some m => deleteCallsFor m.url
      .ok (updateEpisode s si ei (fun e => { e with media := e.media.eraseIdx i }), calls)

/-- The field mutation of the delete-music route: `episode.music = null;
episode.musicOriginalName = null;`. -/
def clearMusic (e : Episode) : Episode := { e with music := none, musicOriginalName := none }

/-- The field mutation of the episode-thumbnail upload route:
`episode.thumbnail = getS3Url(req.file.key)`. -/
def setThumbnail (fileKey : String) (e : Episode) : Episode :=
  { e with thumbnail := some (getS3Url fileKey) }

/-- Route `DELETE /series/:seriesId/music/:seasonIndex/:episodeIndex`
(Profile.js:680-709): resolve the episode, delete the music blob when the
music reference is truthy and a key is derivable, clear `music` and
`musicOriginalName`, save.  The event list records the issued blob deletes
followed by the document save. -/
def deleteMusic (s : Series) (si ei : Int) : Except ApiError (Series × List Event) :=
  match getEpisode s si ei with
  | .error e => .error e
  | .ok none => .error .invalidIndex
  | .ok (some episode) =>
    .ok (updateEpisode s si ei clearMusic,
         (optionalAssetCalls episode.music).map Event.blobDelete ++ [Event.docSave])

/-- Route `POST /series/:seriesId/upload/thumbnail/:seasonIndex/:episodeIndex`
(Profile.js:545-582), after multer stored the new file under `fileKey`:
resolve the episode, delete the old thumbnail blob when one is set (key
derivable), assign the new reference built by `getS3Url`, save.  The event
list records the issued blob deletes followed by the document save. -/
def uploadEpisodeThumbnail (s : Series) (si ei : Int) (fileKey : String) :
    Except ApiError (Series × List Event) :=
  match getEpisode s si ei with
  | .error e => .error e
  | .ok none => .error .invalidIndex
  | .ok (some episode) =>
    .ok (updateEpisode s si ei (setThumbnail fileKey),
         (optionalAssetCalls episode.thumbnail).map Event.blobDelete ++ [Event.docSave])

/-! ## Structural operations as a transition system (for the cardinality
invariant) -/

/-- The four season/episode structure mutating requests. -/
inductive SeriesOp
  | addSeason (episodeCount : Option Int)
  | removeSeason (si : Int)
  | addEpisode (si : Int)
  | removeEpisode (si ei : Int)

/-- The persisted document after one request: the route's saved document on
success, the unchanged document when the route answers with an error (every
error response is sent before `series.save()`). -/
def applyOp (s : Series) : SeriesOp → Series
  | .addSeason ec =>
    match addSeason s ec with
    | .ok s2 => s2
    | .error _ => s
  | .removeSeason si =>
    match removeSeason s si with
    | .ok r => r.1
    | .error _ => s
  | .addEpisode si =>
    match addEpisode s si with
    | .ok s2 => s2
    | .error _ => s
  | .removeEpisode si ei =>
    match removeEpisode s si ei with
    | .ok r => r.1
    | .error _ => s

/-- The persisted document after a sequence of requests. -/
def applyOps (s : Series) (ops : List SeriesOp) : Series := ops.foldl applyOp s

/-- A season's episode count lies in [1,10]. -/
def seasonOk (season : Season) : Prop :=
  1 ≤ season.episodes.length ∧ season.episodes.length ≤ 10

/-- The spec's cardinality invariant: the season count lies in [1,10] and
every season's episode count lies in [1,10]. -/
def seriesInv (s : Series) : Prop :=
  (1 ≤ s.seasons.length ∧ s.seasons.length ≤ 10) ∧ ∀ season ∈ s.seasons, seasonOk season

instance (season : Season) : Decidable (seasonOk season) := by
  unfold seasonOk; infer_instance

instance (s : Series) : Decidable (seriesInv s) := by
  unfold seriesInv; infer_instance

/-! ## Concrete fixtures -/

/-- A concrete media item whose reference carries the blob-store prefix. -/
def sampleMedia : Media :=
  { id := 0, filename := "a.mp4", originalName := "a.mp4", isVideo := true,
    url := getS3Url "a.mp4" }

/-- A concrete episode with a thumbnail, no music, and one media item. -/
def sampleEpisode : Episode :=
  { title := "Episode 1", thumbnail := some (getS3Url "t1.png"), description := "",
    music := none, musicOriginalName := none, media := [sampleMedia] }

/-- A series with a single season holding a single episode. -/
def sampleSeries1 : Series :=
  { title := "My Story", description := "", thumbnail := none,
    seasons := [{ title := "Season 1", episodes := [sampleEpisode] }] }

/-- A series with two seasons of two episodes each. -/
def sampleSeries2 : Series :=
  { title := "My Story", description := "", thumbnail := none,
    seasons := [{ title := "Season 1", episodes := [sampleEpisode, mkEpisode 1] },
                { title := "Season 2", episodes := [mkEpisode 0, mkEpisode 1] }] }

/-! ## Inversion and bounds helpers -/

/-- Replace the season at index `i`. -/
def setSeason (s : Series) (i : Nat) (season : Season) : Series :=
  { s with seasons := s.seasons.set i season }

/-- Replace a season's episode list. -/
def withEpisodes (season : Season) (eps : List Episode) : Season :=
  { season with episodes := eps }

theorem clampEpisodeCount_pos (ec : Option Int) : 1 ≤ clampEpisodeCount ec := by
  unfold clampEpisodeCount; omega

theorem clampEpisodeCount_le (ec : Option Int) : clampEpisodeCount ec ≤ 10 := by
  unfold clampEpisodeCount; omega

@[simp] theorem length_mkEpisodes (n : Nat) : (mkEpisodes n).length = n := by
  simp [mkEpisodes]

theorem jsIndex_some {α : Type} {xs : List α} {i : Int} {a : α}
    (h : jsIndex xs i = some a) :
    0 ≤ i ∧ i.toNat < xs.length ∧ xs[i.toNat]? = some a := by
  unfold jsIndex at h
  split at h
  · simp at h
  · next hn =>
    obtain ⟨hlt, _⟩ := List.getElem?_eq_some.1 h
    exact ⟨by omega, hlt, h⟩

theorem addSeason_ok {s : Series} {ec : Option Int} {s2 : Series}
    (h : addSeason s ec = .ok s2) :
    s.seasons.length < 10 ∧
      s2 = { s with seasons := s.seasons ++
        [{ title := "Season " ++ toString (s.seasons.length + 1)
           episodes := mkEpisodes (clampEpisodeCount ec) }] } := by
  unfold addSeason at h
  split at h
  · simp at h
  · next hlen => exact ⟨by omega, by injection h with h2; rw [h2]⟩

theorem removeSeason_ok {s : Series} {si : Int} {r : Series × List String}
    (h : removeSeason s si = .ok r) :
    ∃ season, 0 ≤ si ∧ si.toNat < s.seasons.length ∧
      s.seasons[si.toNat]? = some season ∧ 1 < s.seasons.length ∧
      r.1 = { s with seasons := s.seasons.eraseIdx si.toNat } ∧
      r.2 = deleteSeasonAssets season := by
  unfold removeSeason at h
  split at h
  · simp at h
  · split at h
    · simp at h
    · next hmin =>
      split at h
      · simp at h
      · next season hidx =>
        obtain ⟨h0, hlt, hget⟩ := jsIndex_some hidx
        injection h with h2
        subst h2
        exact ⟨season, h0, hlt, hget, by omega, rfl, rfl⟩

theorem addEpisode_ok {s : Series} {si : Int} {s2 : Series}
    (h : addEpisode s si = .ok s2) :
    ∃ season, 0 ≤ si ∧ si.toNat < s.seasons.length ∧
      s.seasons[si.toNat]? = some season ∧ season.episodes.length < 10 ∧
      s2 = setSeason s si.toNat
        (withEpisodes season (season.episodes ++ [mkEpisode season.episodes.length])) := by
  unfold addEpisode at h
  split at h
  · simp at h
  · split at h
    · simp at h
    · next season hidx =>
      split at h
      · simp at h
      · next hcap =>
        obtain ⟨h0, hlt, hget⟩ := jsIndex_some hidx
        injection h with h2
        exact ⟨season, h0, hlt, hget, by omega, h2.symm⟩

theorem removeEpisode_ok {s : Series} {si ei : Int} {r : Series × List String}
    (h : removeEpisode s si ei = .ok r) :
    ∃ season episode, 0 ≤ si ∧ si.toNat < s.seasons.length ∧
      s.seasons[si.toNat]? = some season ∧
      0 ≤ ei ∧ ei.toNat < season.episodes.length ∧
      season.episodes[ei.toNat]? = some episode ∧ 1 < season.episodes.length ∧
      r.1 = setSeason s si.toNat
        (withEpisodes season (season.episodes.eraseIdx ei.toNat)) ∧
      r.2 = deleteEpisodeAssets episode := by
  unfold removeEpisode at h
  split at h
  · simp at h
  · split at h
    · simp at h
    · next season hidx =>
      split at h
      · simp at h
      · split at h
        · simp at h
        · split at h
          · simp at h
          · next episode hidx2 =>
            obtain ⟨h0, hlt, hget⟩ := jsIndex_some hidx
            obtain ⟨h0e, hlte, hgete⟩ := jsIndex_some hidx2
            injection h with h2
            subst h2
            exact ⟨season, episode, h0, hlt, hget, h0e, hlte, hgete, by omega, rfl, rfl⟩

theorem seriesInv_applyOp (s : Series) (op : SeriesOp) (h : seriesInv s) :
    seriesInv (applyOp s op) := by
  obtain ⟨⟨hlo, hhi⟩, hall⟩ := h
  cases op with
  | addSeason ec =>
    simp only [applyOp]
    split
    · next s2 heq =>
      obtain ⟨hlen, rfl⟩ := addSeason_ok heq
      refine ⟨⟨by simp; try omega, by simp; try omega⟩, ?_⟩
      intro season hmem
      rcases List.mem_append.1 hmem with hm | hm
      · exact hall season hm
      · have : season.episodes.length = clampEpisodeCount ec := by
          simp at hm; rw [hm]; simp
        exact ⟨by rw [this]; exact clampEpisodeCount_pos ec,
               by rw [this]; exact clampEpisodeCount_le ec⟩
    · exact ⟨⟨hlo, hhi⟩, hall⟩
  | removeSeason si =>
    simp only [applyOp]
    split
    · next r heq =>
      obtain ⟨season, h0, hlt, hget, hmin, hs1, _⟩ := removeSeason_ok heq
      rw [hs1]
      refine ⟨⟨?_, ?_⟩, ?_⟩
      · simp [List.length_eraseIdx, hlt]; omega
      · simp [List.length_eraseIdx, hlt]; omega
      · intro season2 hmem
        exact hall season2 (List.mem_of_mem_eraseIdx hmem)
    · exact ⟨⟨hlo, hhi⟩, hall⟩
  | addEpisode si =>
    simp only [applyOp]
    split
    · next s2 heq =>
      obtain ⟨season, h0, hlt, hget, hcap, rfl⟩ := addEpisode_ok heq
      refine ⟨⟨by simp [setSeason]; omega, by simp [setSeason]; omega⟩, ?_⟩
      intro season2 hmem
      simp only [setSeason] at hmem
      rcases List.mem_or_eq_of_mem_set hmem with hm | rfl
      · exact hall season2 hm
      · have hs := hall season (List.getElem?_mem hget)
        exact ⟨by simp [withEpisodes]; try omega, by simp [withEpisodes]; try omega⟩
    · exact ⟨⟨hlo, hhi⟩, hall⟩
  | removeEpisode si ei =>
    simp only [applyOp]
    split
    · next r heq =>
      obtain ⟨season, episode, h0, hlt, hget, h0e, hlte, hgete, hmin, hs1, _⟩ :=
        removeEpisode_ok heq
      rw [hs1]
      refine ⟨⟨by simp [setSeason]; omega, by simp [setSeason]; omega⟩, ?_⟩
      intro season2 hmem
      simp only [setSeason] at hmem
      rcases List.mem_or_eq_of_mem_set hmem with hm | rfl
      · exact hall season2 hm
      · have hs := hall season (List.getElem?_mem hget)
        obtain ⟨hs1e, hs2e⟩ := hs
        refine ⟨?_, ?_⟩ <;>
          simp [withEpisodes, List.length_eraseIdx, hlte] <;> omega
    · exact ⟨⟨hlo, hhi⟩, hall⟩

theorem seriesInv_applyOps (s : Series) (ops : List SeriesOp) (h : seriesInv s) :
    seriesInv (applyOps s ops) := by
  induction ops generalizing s with
  | nil => exact h
  | cons op ops ih => exact ih (applyOp s op) (seriesInv_applyOp s op h)

/-- Claim C1:  Starting from any series satisfying the cardinality invariant
(season count in [1,10], each season's episode count in [1,10]), any sequence
of add-season / remove-season / add-episode / remove-episode requests
preserves the invariant; moreover a season removal that would leave zero
seasons is rejected, an episode removal that would leave a season empty is
rejected, an eleventh season is rejected, and an eleventh episode is
rejected. -/
theorem c1_cardinality_invariant (s : Series) (h : seriesInv s) :
    (∀ ops, seriesInv (applyOps s ops)) ∧
    (s.seasons.length = 1 → ∀ si r, removeSeason s si ≠ .ok r) ∧
    (s.seasons.length = 10 → ∀ ec, addSeason s ec = .error .maxSeasons) ∧
    (∀ si season, jsIndex s.seasons si = some season →
      (season.episodes.length = 1 → ∀ ei r, removeEpisode s si ei ≠ .ok r) ∧
      (season.episodes.length = 10 → addEpisode s si = .error .maxEpisodes)) := by
  refine ⟨fun ops => seriesInv_applyOps s ops h, ?_, ?_, ?_⟩
  · intro h1 si r hr
    obtain ⟨_, _, _, _, hmin, _, _⟩ := removeSeason_ok hr
    omega
  · intro h10 ec
    unfold addSeason
    rw [if_pos (by omega)]
  · intro si season hidx
    obtain ⟨h0, hlt, hget⟩ := jsIndex_some hidx
    constructor
    · intro h1 ei r hr
      obtain ⟨season2, _, _, _, hget2, _, _, _, hmin, _, _⟩ := removeEpisode_ok hr
      rw [hget] at hget2
      injection hget2 with hseq
      rw [hseq] at h1
      omega
    · intro h10
      have hcond : ¬ ((s.seasons.length : Int) ≤ si) := by omega
      simp [addEpisode, hcond, hidx, h10]

/-- Witness for C1 at a concrete series and request sequence. -/
theorem c1_witness :
    seriesInv sampleSeries2 ∧
      seriesInv (applyOps sampleSeries2
        [.addSeason (some 3), .removeEpisode 0 1, .removeSeason 1, .addEpisode 0]) :=
  ⟨by decide, (c1_cardinality_invariant sampleSeries2 (by decide)).1
    [.addSeason (some 3), .removeEpisode 0 1, .removeSeason 1, .addEpisode 0]⟩

/-! ## Locating an episode (C4) -/

/-- The single season of `sampleSeries1`. -/
def sampleSeason1 : Season := { title := "Season 1", episodes := [sampleEpisode] }

/-- Claim C4, counterexample to the claim as stated:  The claim says
`locateEpisode` returns `NotFound` for every out-of-range index, including
negative ones.  At season index `-1` the code instead throws a `TypeError`
(`series.seasons[-1]` is `undefined` and `.episodes` is read from it), which
the route surfaces as a 500 — not the `NotFound` result. -/
theorem c4_counterexample :
    ¬ (getEpisode sampleSeries1 (-1) 0 = .ok none) ∧
      getEpisode sampleSeries1 (-1) 0 = .error .typeError := by
  constructor
  · intro h
    simp [getEpisode, sampleSeries1, jsIndex] at h
  · simp [getEpisode, sampleSeries1, jsIndex]

/-- Claim C4, amended:  `getEpisode` returns `NotFound` (`null`/`undefined`)
when the season index is at least the season count, or when the season index
is in range and the episode index is negative or at least the episode count;
it returns the addressed episode when both indices are in range; but a
negative season index makes it throw a `TypeError` (surfaced as a 500 by the
routes) instead of returning `NotFound`. -/
theorem c4_locateEpisode_amended (s : Series) (si ei : Int) :
    ((s.seasons.length : Int) ≤ si → getEpisode s si ei = .ok none) ∧
    (si < 0 → getEpisode s si ei = .error .typeError) ∧
    (∀ season, 0 ≤ si → s.seasons[si.toNat]? = some season →
      ((season.episodes.length : Int) ≤ ei → getEpisode s si ei = .ok none) ∧
      (ei < 0 → getEpisode s si ei = .ok none) ∧
      (∀ episode, 0 ≤ ei → season.episodes[ei.toNat]? = some episode →
        getEpisode s si ei = .ok (some episode))) := by
  refine ⟨?_, ?_, ?_⟩
  · intro hle
    unfold getEpisode
    rw [if_pos hle]
  · intro hneg
    have h1 : ¬ ((s.seasons.length : Int) ≤ si) := by omega
    unfold getEpisode jsIndex
    rw [if_neg h1, if_pos hneg]
  · intro season h0 hget
    have hlt : si.toNat < s.seasons.length := (List.getElem?_eq_some.1 hget).1
    have h1 : ¬ ((s.seasons.length : Int) ≤ si) := by omega
    have hjs : jsIndex s.seasons si = some season := by
      unfold jsIndex
      rw [if_neg (by omega)]
      exact hget
    refine ⟨?_, ?_, ?_⟩
    · intro hle
      simp [getEpisode, h1, hjs, hle]
    · intro hneg
      have h2 : ¬ ((season.episodes.length : Int) ≤ ei) := by omega
      simp only [getEpisode, hjs]
      rw [if_neg h1, if_neg h2]
      unfold jsIndex
      rw [if_pos hneg]
    · intro episode h0e hgete
      have hlte : ei.toNat < season.episodes.length := (List.getElem?_eq_some.1 hgete).1
      have h2 : ¬ ((season.episodes.length : Int) ≤ ei) := by omega
      have hne : ¬ (ei < 0) := by omega
      simp only [getEpisode, hjs]
      rw [if_neg h1, if_neg h2]
      unfold jsIndex
      rw [if_neg hne, hgete]

/-- Witness for the amended C4 at concrete inputs: in-range indices locate the
episode, a negative episode index yields `NotFound`. -/
theorem c4_witness :
    getEpisode sampleSeries1 0 0 = .ok (some sampleEpisode) ∧
      getEpisode sampleSeries1 0 (-1) = .ok none := by
  constructor
  · exact ((c4_locateEpisode_amended sampleSeries1 0 0).2.2 sampleSeason1
      (by decide) (by decide)).2.2 sampleEpisode (by decide) (by decide)
  · exact ((c4_locateEpisode_amended sampleSeries1 0 (-1)).2.2 sampleSeason1
      (by decide) (by decide)).2.1 (by decide)

/-! ## Removing a season (C5, C9) -/

/-- Replace the whole season list. -/
def withSeasons (s : Series) (l : List Season) : Series := { s with seasons := l }

/-- The persisted document after a remove-season request (the unchanged
document when the route answered with an error before saving). -/
def removeSeasonPersisted (s : Series) (si : Int) : Series :=
  match removeSeason s si with
  | .ok r => r.1
  | .error _ => s

/-- The blob-store delete calls a remove-season request issues (none when the
route answers with an error, since all its checks precede the cleanup). -/
def removeSeasonCalls (s : Series) (si : Int) : List String :=
  match removeSeason s si with
  | .ok r => r.2
  | .error _ => []

/-- Claim C5:  For a (non-negative) season index, `removeSeason` fails with the
out-of-range error when the index is at least the season count, fails with the
minimum-cardinality error when only one season remains, and otherwise issues
exactly the asset cleanup of the removed season's episodes and removes the
season, shifting the indices of subsequent seasons down by one. -/
theorem c5_removeSeason (s : Series) (si : Nat) :
    (s.seasons.length ≤ si → removeSeason s si = .error .invalidSeasonIndex) ∧
    (si < s.seasons.length → s.seasons.length ≤ 1 →
      removeSeason s si = .error .cannotDeleteLastSeason) ∧
    (∀ season, s.seasons[si]? = some season → 1 < s.seasons.length →
      removeSeason s si =
        .ok (withSeasons s (s.seasons.take si ++ s.seasons.drop (si + 1)),
             deleteSeasonAssets season) ∧
      deleteSeasonAssets season = season.episodes.flatMap deleteEpisodeAssets ∧
      ∀ j, si ≤ j → (s.seasons.take si ++ s.seasons.drop (si + 1))[j]? =
        s.seasons[j + 1]?) := by
  refine ⟨?_, ?_, ?_⟩
  · intro hle
    unfold removeSeason
    rw [if_pos (by omega)]
  · intro hlt hone
    unfold removeSeason
    rw [if_neg (by omega), if_pos hone]
  · intro season hget hmin
    have hlt : si < s.seasons.length := (List.getElem?_eq_some.1 hget).1
    have hjs : jsIndex s.seasons (si : Int) = some season := by
      unfold jsIndex
      rw [if_neg (by omega)]
      simpa using hget
    refine ⟨?_, rfl, ?_⟩
    · unfold removeSeason
      rw [if_neg (by omega), if_neg (by omega)]
      rw [hjs]
      simp [withSeasons, List.eraseIdx_eq_take_drop_succ]
    · intro j hj
      rw [List.getElem?_append_right (by simp [List.length_take]; omega)]
      rw [List.getElem?_drop]
      congr 1
      simp [List.length_take]
      omega

/-- Witness for C5: removing season 0 of the two-season sample succeeds with
its asset cleanup, and an out-of-range index is rejected. -/
theorem c5_witness :
    removeSeason sampleSeries2 0 =
      .ok (withSeasons sampleSeries2 [{ title := "Season 2", episodes := [mkEpisode 0, mkEpisode 1] }],
           deleteSeasonAssets { title := "Season 1", episodes := [sampleEpisode, mkEpisode 1] }) ∧
      removeSeason sampleSeries2 5 = .error .invalidSeasonIndex := by
  constructor
  · exact ((c5_removeSeason sampleSeries2 0).2.2 _ (by decide) (by decide)).1
  · exact (c5_removeSeason sampleSeries2 5).1 (by decide)

/-- Claim C9:  A remove-season request for index 0 on a series whose only season
holds a single episode answers the minimum-cardinality 400 error, persists the
document unchanged, and issues no blob-store delete call. -/
theorem c9_removeLastSeasonRejected (s : Series) (season : Season)
    (h1 : s.seasons = [season]) (h2 : season.episodes.length = 1) :
    removeSeason s 0 = .error .cannotDeleteLastSeason ∧
      removeSeasonPersisted s 0 = s ∧ removeSeasonCalls s 0 = [] := by
  have hl : s.seasons.length = 1 := by rw [h1]; rfl
  have herr : removeSeason s 0 = .error .cannotDeleteLastSeason := by
    unfold removeSeason
    rw [hl]
    norm_num
  exact ⟨herr, by simp [removeSeasonPersisted, herr], by simp [removeSeasonCalls, herr]⟩

/-- Witness for C9 on the one-season one-episode sample series. -/
theorem c9_witness :
    removeSeason sampleSeries1 0 = .error .cannotDeleteLastSeason ∧
      removeSeasonPersisted sampleSeries1 0 = sampleSeries1 ∧
      removeSeasonCalls sampleSeries1 0 = [] :=
  c9_removeLastSeasonRejected sampleSeries1 sampleSeason1 (by decide) (by decide)

/-! ## Adding a season (C6) -/

/-- The season literal appended by the add-season route: title from the
1-based ordinal, `episodeCount` fresh episodes. -/
def mkSeason (ordinal : Nat) (episodeCount : Nat) : Season :=
  { title := "Season " ++ toString ordinal, episodes := mkEpisodes episodeCount }

theorem clampEpisodeCount_some (n : Int) :
    clampEpisodeCount (some n) = (min (max n 1) 10).toNat := by
  simp only [clampEpisodeCount, jsOrOne]
  split <;> omega

theorem mkEpisodes_fields (k : Nat) :
    ∀ i episode, (mkEpisodes k)[i]? = some episode →
      episode.title = "Episode " ++ toString (i + 1) ∧ episode.thumbnail = none ∧
      episode.description = "" ∧ episode.music = none ∧
      episode.musicOriginalName = none ∧ episode.media = [] := by
  intro i episode h
  unfold mkEpisodes at h
  rw [List.getElem?_map] at h
  by_cases hik : i < k
  · rw [List.getElem?_range hik] at h
    have h2 : mkEpisode i = episode := by simpa using h
    subst h2
    exact ⟨rfl, rfl, rfl, rfl, rfl, rfl⟩
  · rw [List.getElem?_eq_none (by simp; omega)] at h
    simp at h

/-- Claim C6:  `addSeason` fails with the capacity error when the series already
has 10 seasons; otherwise it appends exactly one season, titled by its 1-based
ordinal, holding `clamp(episodeCount, 1, 10)` episodes, each freshly titled by
its own 1-based ordinal with thumbnail, music and musicOriginalName unset and
an empty media list. -/
theorem c6_addSeason (s : Series) (n : Int) :
    (10 ≤ s.seasons.length → addSeason s (some n) = .error .maxSeasons) ∧
    (s.seasons.length < 10 →
      addSeason s (some n) =
        .ok (withSeasons s (s.seasons ++
          [mkSeason (s.seasons.length + 1) ((min (max n 1) 10).toNat)])) ∧
      1 ≤ (min (max n 1) 10).toNat ∧ (min (max n 1) 10).toNat ≤ 10 ∧
      (mkEpisodes ((min (max n 1) 10).toNat)).length = (min (max n 1) 10).toNat ∧
      ∀ i episode, (mkEpisodes ((min (max n 1) 10).toNat))[i]? = some episode →
        episode.title = "Episode " ++ toString (i + 1) ∧ episode.thumbnail = none ∧
        episode.music = none ∧ episode.musicOriginalName = none ∧
        episode.media = []) := by
  constructor
  · intro h10
    unfold addSeason
    rw [if_pos (by omega)]
  · intro hlen
    refine ⟨?_, by omega, by omega, by simp, ?_⟩
    · unfold addSeason
      rw [if_neg (by omega), clampEpisodeCount_some]
      rfl
    · intro i episode h
      obtain ⟨ht, hth, _, hm, hmon, hmed⟩ := mkEpisodes_fields _ i episode h
      exact ⟨ht, hth, hm, hmon, hmed⟩

/-- Witness for C6: adding a season with requested episode count 15 to the
one-season sample appends a second season with the count clamped to 10. -/
theorem c6_witness :
    addSeason sampleSeries1 (some 15) =
      .ok (withSeasons sampleSeries1 (sampleSeries1.seasons ++
        [mkSeason (sampleSeries1.seasons.length + 1) ((min (max (15 : Int) 1) 10).toNat)])) :=
  ((c6_addSeason sampleSeries1 15).2 (by decide)).1

/-! ## Reordering media (C3) -/

/-- A second media item with id 1. -/
def sampleMediaB : Media :=
  { id := 1, filename := "b.jpg", originalName := "b.jpg", isVideo := false,
    url := getS3Url "b.jpg" }

/-- An episode holding two media items with ids 0 and 1. -/
def sampleEpisodeB : Episode :=
  { title := "Episode 1", thumbnail := none, description := "", music := none,
    musicOriginalName := none, media := [sampleMedia, sampleMediaB] }

/-- A one-season one-episode series whose episode holds two media items. -/
def sampleSeries3 : Series :=
  { title := "My Story", description := "", thumbnail := none,
    seasons := [{ title := "Season 1", episodes := [sampleEpisodeB] }] }

theorem reorderedList_ids (media : List Media) (ids : List Nat) :
    (reorderedList media ids).map (fun m => m.id) =
      ids.filter (fun id => media.any (fun m => m.id == id)) := by
  induction ids with
  | nil => rfl
  | cons id ids ih =>
    cases hf : media.find? (fun m => m.id == id) with
    | none =>
      have hany : media.any (fun m => m.id == id) = false := by
        rw [List.any_eq_false]
        intro m hm
        simpa using List.find?_eq_none.1 hf m hm
      simp only [reorderedList, List.filterMap_cons] at ih ⊢
      simp only [hf]
      rw [List.filter_cons_of_neg (by simp [hany]), ih]
    | some m =>
      have hpm := List.find?_some hf
      have hmem : m ∈ media := List.mem_of_find?_eq_some hf
      have hany : (media.any fun mm => mm.id == id) = true :=
        List.any_eq_true.2 ⟨m, hmem, hpm⟩
      simp only [reorderedList, List.filterMap_cons] at ih ⊢
      simp only [hf, List.filter_cons, hany, if_true]
      simp only [List.map_cons, ih]
      have hmid : m.id = id := by simpa using hpm
      rw [hmid]

theorem mem_reorderedList {media : List Media} {ids : List Nat} {m : Media}
    (h : m ∈ reorderedList media ids) : m ∈ media ∧ m.id ∈ ids := by
  unfold reorderedList at h
  obtain ⟨id, hid, hfind⟩ := List.mem_filterMap.1 h
  have hpm := List.find?_some hfind
  have hmid : m.id = id := by simpa using hpm
  exact ⟨List.mem_of_find?_eq_some hfind, hmid ▸ hid⟩

/-- Claim C3:  For any located episode and any id list, the reorder route
rebuilds the episode's media sequence as `reorderedList`, whose id sequence is
exactly the input ids filtered to ids of existing media, in the given order;
media items whose id is absent from the list are dropped (every surviving item
carries an id from the list), and the route issues zero blob-store delete
calls (the empty key list). -/
theorem c3_reorderMedia (s : Series) (si ei : Int) (episode : Episode) (ids : List Nat)
    (h : getEpisode s si ei = .ok (some episode)) :
    reorderMedia s si ei ids =
      .ok (updateEpisode s si ei (fun e => { e with media := reorderedList episode.media ids }), []) ∧
    (reorderedList episode.media ids).map (fun m => m.id) =
      ids.filter (fun id => episode.media.any (fun m => m.id == id)) ∧
    ∀ m ∈ reorderedList episode.media ids, m.id ∈ ids := by
  refine ⟨?_, reorderedList_ids episode.media ids, fun m hm => (mem_reorderedList hm).2⟩
  simp only [reorderMedia, h]

/-- Witness for C3: reordering the two-media sample episode with ids `[1, 5]`
keeps exactly the media item with id 1 and issues no delete call. -/
theorem c3_witness :
    reorderMedia sampleSeries3 0 0 [1, 5] =
      .ok (updateEpisode sampleSeries3 0 0
        (fun e => { e with media := reorderedList sampleEpisodeB.media [1, 5] }), []) ∧
      reorderedList sampleEpisodeB.media [1, 5] = [sampleMediaB] :=
  ⟨(c3_reorderMedia sampleSeries3 0 0 sampleEpisodeB [1, 5] (by decide)).1, by decide⟩

/-! ## Media id uniqueness (C7) -/

/-- One file of a bulk media upload, after multer stored it: the storage key,
the original file name, and whether the extension marks it as video. -/
structure UploadFile where
  key : String
  originalName : String
  isVideo : Bool
deriving Repr, DecidableEq

/-- The media subdocument built for one uploaded file (Profile.js:604-613),
with the fresh `_id` mongoose assigns on push. -/
def mkMedia (id : Nat) (f : UploadFile) : Media :=
  { id := id, filename := f.key, originalName := f.originalName,
    isVideo := f.isVideo, url := getS3Url f.key }

/-- The media subdocuments appended by `episode.media.push(...newMedia)`,
each with the next fresh id. -/
def appendUploads (next : Nat) : List UploadFile → List Media
  | [] => []
  | f :: rest => mkMedia next f :: appendUploads (next + 1) rest

/-- The episode-level media mutations: bulk upload (Profile.js:585-626),
single delete by id (Profile.js:712-746), reorder (Profile.js:749-777). -/
inductive MediaOp
  | upload (files : List UploadFile)
  | remove (id : Nat)
  | reorder (ids : List Nat)

/-- One media mutation on the state (media list, next fresh id).  A delete
whose id is absent answers 404 and leaves the list unchanged. -/
def applyMediaOp : List Media × Nat → MediaOp → List Media × Nat
  | (media, next), .upload files => (media ++ appendUploads next files, next + files.length)
  | (media, next), .remove id =>
    match media.findIdx? (fun m => m.id == id) with
    | none => (media, next)
    | some i => (media.eraseIdx i, next)
  | (media, next), .reorder ids => (reorderedList media ids, next)

/-- A sequence of media mutations. -/
def applyMediaOps (st : List Media × Nat) (ops : List MediaOp) : List Media × Nat :=
  ops.foldl applyMediaOp st

/-- Media ids are pairwise distinct and below the fresh-id counter. -/
def mediaInv (st : List Media × Nat) : Prop :=
  (st.1.map (fun m => m.id)).Nodup ∧ ∀ m ∈ st.1, m.id < st.2

/-- A reorder request whose id list repeats no id; other requests are
unconstrained. -/
def dupFree : MediaOp → Prop
  | .reorder ids => ids.Nodup
  | _ => True

instance (st : List Media × Nat) : Decidable (mediaInv st) := by
  unfold mediaInv; infer_instance

instance (op : MediaOp) : Decidable (dupFree op) := by
  cases op <;> (unfold dupFree; infer_instance)

theorem appendUploads_id_bounds (files : List UploadFile) (next : Nat) :
    ∀ m ∈ appendUploads next files, next ≤ m.id ∧ m.id < next + files.length := by
  induction files generalizing next with
  | nil => intro m hm; simp [appendUploads] at hm
  | cons f rest ih =>
    intro m hm
    rcases List.mem_cons.1 hm with rfl | hm
    · refine ⟨Nat.le_refl _, ?_⟩
      show next < next + (f :: rest).length
      simp only [List.length_cons]
      omega
    · have := ih (next + 1) m hm
      simp only [List.length_cons]
      omega

theorem appendUploads_ids_nodup (files : List UploadFile) (next : Nat) :
    ((appendUploads next files).map (fun m => m.id)).Nodup := by
  induction files generalizing next with
  | nil => simp [appendUploads]
  | cons f rest ih =>
    simp only [appendUploads, List.map_cons, List.nodup_cons]
    refine ⟨?_, ih (next + 1)⟩
    intro hmem
    obtain ⟨m, hm, hid⟩ := List.mem_map.1 hmem
    have := appendUploads_id_bounds rest (next + 1) m hm
    simp [mkMedia] at hid
    omega

theorem mediaInv_applyMediaOp (st : List Media × Nat) (op : MediaOp)
    (hinv : mediaInv st) (hop : dupFree op) : mediaInv (applyMediaOp st op) := by
  obtain ⟨media, next⟩ := st
  obtain ⟨hnd, hlt⟩ := hinv
  cases op with
  | upload files =>
    refine ⟨?_, ?_⟩
    · simp only [applyMediaOp, List.map_append]
      rw [List.nodup_append]
      refine ⟨hnd, appendUploads_ids_nodup files next, ?_⟩
      intro a ha hb
      obtain ⟨m, hm, hid⟩ := List.mem_map.1 ha
      obtain ⟨m2, hm2, hid2⟩ := List.mem_map.1 hb
      have h1 := hlt m hm
      have h2 := (appendUploads_id_bounds files next m2 hm2).1
      omega
    · intro m hm
      simp only [applyMediaOp] at hm ⊢
      rcases List.mem_append.1 hm with h | h
      · have := hlt m h; omega
      · have := (appendUploads_id_bounds files next m h).2; omega
  | remove id =>
    simp only [applyMediaOp]
    split
    · exact ⟨hnd, hlt⟩
    · next i hidx =>
      refine ⟨?_, ?_⟩
      · exact List.Nodup.sublist (List.Sublist.map _ (List.eraseIdx_sublist media i)) hnd
      · intro m hm
        exact hlt m (List.mem_of_mem_eraseIdx hm)
  | reorder ids =>
    refine ⟨?_, ?_⟩
    · simp only [applyMediaOp]
      rw [reorderedList_ids]
      exact List.Nodup.filter _ hop
    · intro m hm
      simp only [applyMediaOp] at hm
      exact hlt m (mem_reorderedList hm).1

/-- Claim C7, counterexample to the claim as stated:  Reorder with an arbitrary
id list does not preserve id uniqueness: sending the same id twice duplicates
that media item (`mediaIds.map(find)` yields the same subdocument twice and
`filter(Boolean)` keeps both). -/
theorem c7_counterexample :
    mediaInv ([sampleMedia], 1) ∧
      ¬ mediaInv (applyMediaOp ([sampleMedia], 1) (.reorder [0, 0])) := by
  constructor
  · exact ⟨by decide, by decide⟩
  · intro h
    have := h.1
    revert this
    decide

/-- Claim C7, amended:  Media ids stay pairwise distinct (and below the
fresh-id counter) under any sequence of uploads, deletes, and reorders whose
reorder id lists are themselves duplicate-free; an id repeated in a reorder
list instead duplicates the media item. -/
theorem c7_media_id_unique_amended (st : List Media × Nat) (ops : List MediaOp)
    (hinv : mediaInv st) (hops : ∀ op ∈ ops, dupFree op) :
    mediaInv (applyMediaOps st ops) := by
  induction ops generalizing st with
  | nil => exact hinv
  | cons op ops ih =>
    exact ih (applyMediaOp st op)
      (mediaInv_applyMediaOp st op hinv (hops op (by simp)))
      (fun o ho => hops o (by simp [ho]))

/-- Witness for the amended C7: upload, duplicate-free reorder, delete. -/
theorem c7_witness :
    mediaInv (applyMediaOps ([sampleMedia], 1)
      [.upload [{ key := "c.png", originalName := "c.png", isVideo := false }],
       .reorder [1, 0], .remove 0]) :=
  c7_media_id_unique_amended ([sampleMedia], 1)
    [.upload [{ key := "c.png", originalName := "c.png", isVideo := false }],
     .reorder [1, 0], .remove 0]
    (by decide) (by decide)

/-! ## Asset cleanup (C2) -/

/-- An asset reference from which a usable (non-empty) storage key can be
derived — the shape of every reference the system itself writes, since they
are produced by `getS3Url` on a non-empty key. -/
def goodRef (u : String) : Bool :=
  match getKeyFromUrl u with
  | none => false
  | some k => k ≠ ""

/-- The storage key derived from a reference (empty for non-matching
references; only used under a `goodRef` hypothesis). -/
def keyOf (u : String) : String := (getKeyFromUrl u).getD ""

/-- Definition following the spec's words (§4.2, `collectEpisodeAssets`): the
thumbnail if set, then the music if set, then every media item's url, in that
order; per §4.2 a null/empty reference counts as not set. -/
def optionalCollect : Option String → List String
  | none => []
  | some u => if u = "" then [] else [u]

/-- Definition following the spec's words: the asset references owned by an
episode, in cleanup order. -/
def collectEpisodeAssets (e : Episode) : List String :=
  optionalCollect e.thumbnail ++ optionalCollect e.music ++ e.media.map (fun m => m.url)

theorem flatMap_congr_of_mem {α β : Type} {l : List α} {f g : α → List β}
    (h : ∀ x ∈ l, f x = g x) : l.flatMap f = l.flatMap g := by
  induction l with
  | nil => rfl
  | cons x xs ih =>
    simp only [List.flatMap_cons]
    rw [h x (by simp), ih (fun y hy => h y (by simp [hy]))]

theorem deleteCallsFor_good {u : String} (h : goodRef u = true) :
    deleteCallsFor u = [keyOf u] := by
  unfold goodRef at h
  unfold deleteCallsFor keyOf
  cases hk : getKeyFromUrl u with
  | none => rw [hk] at h; simp at h
  | some k =>
    rw [hk] at h
    simp only [ne_eq, decide_eq_true_eq] at h
    simp [h]

theorem goodRef_ne_empty {u : String} (h : goodRef u = true) : u ≠ "" := by
  intro he
  subst he
  revert h
  decide

theorem optionalAssetCalls_good (r : Option String)
    (h : ∀ u ∈ optionalCollect r, goodRef u = true) :
    optionalAssetCalls r = (optionalCollect r).map keyOf := by
  cases r with
  | none => rfl
  | some u =>
    simp only [optionalAssetCalls, optionalCollect] at h ⊢
    by_cases he : u = ""
    · simp [he]
    · rw [if_neg he] at h ⊢
      rw [deleteCallsFor_good (h u (by simp))]
      simp [he]

theorem mediaCalls_good (media : List Media)
    (h : ∀ m ∈ media, goodRef m.url = true) :
    media.flatMap (fun m => deleteCallsFor m.url) = (media.map (fun m => m.url)).map keyOf := by
  induction media with
  | nil => rfl
  | cons m rest ih =>
    simp only [List.flatMap_cons, List.map_cons]
    rw [deleteCallsFor_good (h m (by simp))]
    rw [ih (fun m2 hm2 => h m2 (by simp [hm2]))]
    rfl

/-- Claim C2:  When every owned asset reference is well-formed (derives a
non-empty key — the shape the system itself writes), deleting an episode's
assets issues exactly one blob-store delete call per collected asset
reference — thumbnail if set, music if set, then each media url — in that
order (the call list is the key of each collected reference, and has the same
length), and removing a season does so for each of its episodes in order.
References that are unset are not collected and receive no call. -/
theorem c2_asset_cleanup_calls (e : Episode) (season : Season)
    (he : ∀ u ∈ collectEpisodeAssets e, goodRef u = true)
    (hs : ∀ ep ∈ season.episodes, ∀ u ∈ collectEpisodeAssets ep, goodRef u = true) :
    deleteEpisodeAssets e = (collectEpisodeAssets e).map keyOf ∧
    (deleteEpisodeAssets e).length = (collectEpisodeAssets e).length ∧
    deleteSeasonAssets season =
      season.episodes.flatMap (fun ep => (collectEpisodeAssets ep).map keyOf) := by
  have episodeCase : ∀ ep : Episode, (∀ u ∈ collectEpisodeAssets ep, goodRef u = true) →
      deleteEpisodeAssets ep = (collectEpisodeAssets ep).map keyOf := by
    intro ep hep
    unfold collectEpisodeAssets at hep ⊢
    unfold deleteEpisodeAssets
    rw [List.map_append, List.map_append]
    have h1 : ∀ u ∈ optionalCollect ep.thumbnail, goodRef u = true := by
      intro u hu; exact hep u (by simp [hu])
    have h2 : ∀ u ∈ optionalCollect ep.music, goodRef u = true := by
      intro u hu; exact hep u (by simp [hu])
    have h3 : ∀ m ∈ ep.media, goodRef m.url = true := by
      intro m hm
      exact hep m.url (by simp; right; right; exact ⟨m, hm, rfl⟩)
    rw [optionalAssetCalls_good _ h1, optionalAssetCalls_good _ h2, mediaCalls_good _ h3]
  refine ⟨episodeCase e he, ?_, ?_⟩
  · rw [episodeCase e he, List.length_map]
  · unfold deleteSeasonAssets
    exact flatMap_congr_of_mem (fun ep hep => episodeCase ep (hs ep hep))

/-- Witness for C2: the sample episode has a thumbnail and one media item but
no music; its cleanup issues exactly the two keys, in order, and the sample
season's cleanup matches episode-wise. -/
theorem c2_witness :
    deleteEpisodeAssets sampleEpisode = ["t1.png", "a.mp4"] ∧
      deleteEpisodeAssets sampleEpisode = (collectEpisodeAssets sampleEpisode).map keyOf ∧
      deleteSeasonAssets sampleSeason1 =
        sampleSeason1.episodes.flatMap (fun ep => (collectEpisodeAssets ep).map keyOf) := by
  have h := c2_asset_cleanup_calls sampleEpisode sampleSeason1 (by decide) (by decide)
  exact ⟨by decide, h.1, h.2.2⟩

/-! ## Locating through an update (shared by C8 and C10) -/

theorem set_of_getElem? {α : Type} {l : List α} {i : Nat} {a : α}
    (h : l[i]? = some a) : l.set i a = l := by
  induction l generalizing i with
  | nil => simp at h
  | cons x xs ih =>
    cases i with
    | zero =>
      simp only [List.getElem?_cons_zero, Option.some.injEq] at h
      simp [h]
    | succ n =>
      simp only [List.getElem?_cons_succ] at h
      simp [ih h]

theorem setSeason_setSeason (s : Series) (i : Nat) (a b : Season) :
    setSeason (setSeason s i a) i b = setSeason s i b := by
  simp [setSeason, List.set_set]

theorem getEpisode_ok_some {s : Series} {si ei : Int} {episode : Episode}
    (h : getEpisode s si ei = .ok (some episode)) :
    ∃ season, 0 ≤ si ∧ si.toNat < s.seasons.length ∧
      s.seasons[si.toNat]? = some season ∧
      0 ≤ ei ∧ ei.toNat < season.episodes.length ∧
      season.episodes[ei.toNat]? = some episode := by
  unfold getEpisode at h
  split at h
  · simp at h
  · split at h
    · simp at h
    · next season hidx =>
      split at h
      · simp at h
      · injection h with h2
        obtain ⟨h0, hlt, hget⟩ := jsIndex_some hidx
        obtain ⟨h0e, hlte, hgete⟩ := jsIndex_some h2
        exact ⟨season, h0, hlt, hget, h0e, hlte, hgete⟩

theorem updateEpisode_eq {s : Series} {si ei : Int} {season : Season} {episode : Episode}
    (h0 : 0 ≤ si) (hget : s.seasons[si.toNat]? = some season)
    (h0e : 0 ≤ ei) (hgete : season.episodes[ei.toNat]? = some episode)
    (f : Episode → Episode) :
    updateEpisode s si ei f =
      setSeason s si.toNat (withEpisodes season (season.episodes.set ei.toNat (f episode))) := by
  have hjs : jsIndex s.seasons si = some season := by
    unfold jsIndex
    rw [if_neg (by omega)]
    exact hget
  have hjse : jsIndex season.episodes ei = some episode := by
    unfold jsIndex
    rw [if_neg (by omega)]
    exact hgete
  simp only [updateEpisode, hjs, hjse]
  rfl

theorem getEpisode_updateEpisode {s : Series} {si ei : Int} {season : Season} {episode : Episode}
    (h0 : 0 ≤ si) (hget : s.seasons[si.toNat]? = some season)
    (h0e : 0 ≤ ei) (hgete : season.episodes[ei.toNat]? = some episode)
    (f : Episode → Episode) :
    getEpisode (updateEpisode s si ei f) si ei = .ok (some (f episode)) := by
  have hlt : si.toNat < s.seasons.length := (List.getElem?_eq_some.1 hget).1
  have hlte : ei.toNat < season.episodes.length := (List.getElem?_eq_some.1 hgete).1
  have c1 : ¬ ((s.seasons.length : Int) ≤ si) := by omega
  have c2 : ¬ (si < 0) := by omega
  have c3 : ¬ ((season.episodes.length : Int) ≤ ei) := by omega
  have c4 : ¬ (ei < 0) := by omega
  rw [updateEpisode_eq h0 hget h0e hgete f]
  simp only [getEpisode, jsIndex, setSeason, withEpisodes, List.length_set,
    List.getElem?_set_self hlt, List.getElem?_set_self hlte, c1, c2, c3, c4,
    if_false, ite_false]

theorem updateEpisode_idem {s : Series} {si ei : Int} {season : Season} {episode : Episode}
    (h0 : 0 ≤ si) (hget : s.seasons[si.toNat]? = some season)
    (h0e : 0 ≤ ei) (hgete : season.episodes[ei.toNat]? = some episode)
    (f : Episode → Episode) (hf : f (f episode) = f episode) :
    updateEpisode (updateEpisode s si ei f) si ei f = updateEpisode s si ei f := by
  have hlt : si.toNat < s.seasons.length := (List.getElem?_eq_some.1 hget).1
  have hlte : ei.toNat < season.episodes.length := (List.getElem?_eq_some.1 hgete).1
  rw [updateEpisode_eq h0 hget h0e hgete f]
  have hget2 : (setSeason s si.toNat
        (withEpisodes season (season.episodes.set ei.toNat (f episode)))).seasons[si.toNat]? =
      some (withEpisodes season (season.episodes.set ei.toNat (f episode))) := by
    simp only [setSeason]
    exact List.getElem?_set_self hlt
  have hgete2 : (withEpisodes season (season.episodes.set ei.toNat (f episode))).episodes[ei.toNat]? =
      some (f episode) := by
    simp only [withEpisodes]
    exact List.getElem?_set_self hlte
  rw [updateEpisode_eq h0 hget2 h0e hgete2 f, hf]
  rw [show (withEpisodes season (season.episodes.set ei.toNat (f episode))).episodes.set ei.toNat (f episode) =
      (withEpisodes season (season.episodes.set ei.toNat (f episode))).episodes from set_of_getElem? hgete2]
  rw [setSeason_setSeason]
  rfl

/-! ## Replacing a thumbnail (C8) -/

/-- Claim C8:  For a located episode, uploading a new thumbnail over an existing
(well-formed) one issues exactly one blob-store delete call, for the key
derived from the old reference, before the new reference is assigned and the
document saved; when no thumbnail is set, the route issues no delete call at
all — only the save. -/
theorem c8_thumbnail_replace (s : Series) (si ei : Int) (episode : Episode) (fileKey : String)
    (h : getEpisode s si ei = .ok (some episode)) :
    (∀ t, episode.thumbnail = some t → goodRef t = true →
      uploadEpisodeThumbnail s si ei fileKey =
        .ok (updateEpisode s si ei (setThumbnail fileKey),
             [Event.blobDelete (keyOf t), Event.docSave])) ∧
    (episode.thumbnail = none →
      uploadEpisodeThumbnail s si ei fileKey =
        .ok (updateEpisode s si ei (setThumbnail fileKey), [Event.docSave])) := by
  constructor
  · intro t ht hgood
    simp only [uploadEpisodeThumbnail, h, ht]
    rw [optionalAssetCalls_good (some t) (by intro u hu; simp [optionalCollect, goodRef_ne_empty hgood] at hu; rw [hu]; exact hgood)]
    simp [optionalCollect, goodRef_ne_empty hgood]
  · intro ht
    simp only [uploadEpisodeThumbnail, h, ht]
    rfl

/-- Witness for C8: replacing the sample episode's thumbnail deletes exactly
the old key `t1.png` before the save; uploading to the thumbnail-less episode
of the two-season sample issues no delete. -/
theorem c8_witness :
    uploadEpisodeThumbnail sampleSeries1 0 0 "new.png" =
      .ok (updateEpisode sampleSeries1 0 0 (setThumbnail "new.png"),
           [Event.blobDelete (keyOf (getS3Url "t1.png")), Event.docSave]) ∧
      keyOf (getS3Url "t1.png") = "t1.png" ∧
      uploadEpisodeThumbnail sampleSeries2 0 1 "new.png" =
        .ok (updateEpisode sampleSeries2 0 1 (setThumbnail "new.png"), [Event.docSave]) := by
  refine ⟨?_, by decide, ?_⟩
  · exact (c8_thumbnail_replace sampleSeries1 0 0 sampleEpisode "new.png" (by decide)).1
      (getS3Url "t1.png") (by decide) (by decide)
  · exact (c8_thumbnail_replace sampleSeries2 0 1 (mkEpisode 1) "new.png" (by decide)).2
      (by decide)

/-! ## Deleting music (C10) -/

/-- Claim C10:  For a located episode the delete-music route always succeeds:
with no music set it issues no blob-store delete call (only the save) while
still clearing both fields, and the operation is idempotent — running it again
on the saved document returns the same document, with `music` and
`musicOriginalName` both cleared, and issues no delete call. -/
theorem c10_deleteMusic (s : Series) (si ei : Int) (episode : Episode)
    (h : getEpisode s si ei = .ok (some episode)) :
    deleteMusic s si ei =
      .ok (updateEpisode s si ei clearMusic,
           (optionalAssetCalls episode.music).map Event.blobDelete ++ [Event.docSave]) ∧
    (episode.music = none →
      deleteMusic s si ei = .ok (updateEpisode s si ei clearMusic, [Event.docSave])) ∧
    (getEpisode (updateEpisode s si ei clearMusic) si ei = .ok (some (clearMusic episode)) ∧
     (clearMusic episode).music = none ∧ (clearMusic episode).musicOriginalName = none ∧
     deleteMusic (updateEpisode s si ei clearMusic) si ei =
       .ok (updateEpisode s si ei clearMusic, [Event.docSave])) := by
  obtain ⟨season, h0, hlt, hget, h0e, hlte, hgete⟩ := getEpisode_ok_some h
  have hfirst : deleteMusic s si ei =
      .ok (updateEpisode s si ei clearMusic,
           (optionalAssetCalls episode.music).map Event.blobDelete ++ [Event.docSave]) := by
    simp only [deleteMusic, h]
  have hg2 : getEpisode (updateEpisode s si ei clearMusic) si ei =
      .ok (some (clearMusic episode)) :=
    getEpisode_updateEpisode h0 hget h0e hgete clearMusic
  refine ⟨hfirst, ?_, hg2, rfl, rfl, ?_⟩
  · intro hnone
    rw [hfirst, hnone]
    rfl
  · simp only [deleteMusic, hg2]
    rw [updateEpisode_idem h0 hget h0e hgete clearMusic rfl]
    rfl

/-- Witness for C10: deleting music on the music-less sample episode succeeds
with only the save event, and doing it again yields the same document. -/
theorem c10_witness :
    deleteMusic sampleSeries1 0 0 =
      .ok (updateEpisode sampleSeries1 0 0 clearMusic, [Event.docSave]) ∧
      deleteMusic (updateEpisode sampleSeries1 0 0 clearMusic) 0 0 =
        .ok (updateEpisode sampleSeries1 0 0 clearMusic, [Event.docSave]) := by
  have h := c10_deleteMusic sampleSeries1 0 0 sampleEpisode (by decide)
  exact ⟨h.2.1 (by decide), h.2.2.2.2.2⟩

end NetflixGallery
